import Mathlib

/-!
Verification development for the xline-operator repository.

Shallow embedding of:
* `utils/src/migration.rs` — the CRD version comparator `compare_versions`;
* `operator-k8s/src/operator.rs` — the CRD lifecycle decision in `Operator::prepare_crd`;
* `deploy/src/controller/cluster.rs` — the cluster reconciler (`ClusterController`);
* `deploy/src/sidecar_state.rs` — the liveness aggregator (`SidecarState::state_update_task`),
  with `HeartbeatStatus` from `operator-api/src/lib.rs`.

Machine integers are modelled as `Nat` with explicit reduction modulo `2 ^ 32` / `2 ^ 64`
where the Rust code can overflow.  Fallible code returns `Except`.  Kubernetes API calls
are modelled as emitted actions; per the claims we reason about which calls are issued,
in which order, and the resulting state.
-/

deriving instance DecidableEq for Except

namespace XlineOperator

/-! ## Version comparator (`utils/src/migration.rs`) -/

/-- Wrap-around bound of `u32`. -/
def u32Mod : Nat := 2 ^ 32

/-- Wrap-around bound of `u64` and of 64-bit `usize`. -/
def u64Mod : Nat := 2 ^ 64

/-- Embeds Rust `str::trim_start_matches('v')`: drop every leading `'v'`. -/
def trimStartMatchesV (s : List Char) : List Char := s.dropWhile (· = 'v')

/-- Numeric value of a digit list, most significant first. -/
def digitsVal (t : List Char) : Nat :=
  t.foldl (fun a c => a * 10 + (c.toNat - '0'.toNat)) 0

/-- Embeds Rust `str::parse::<u32>()`: an optional leading `'+'`, then one or more
ASCII digits, value below `2 ^ 32` (overflow is a parse error). -/
def parseU32 (s : List Char) : Option Nat :=
  let t := match s with
    | '+' :: rest => rest
    | rest => rest
  if t.isEmpty then none
  else if t.all Char.isDigit then
    let n := digitsVal t
    if n < u32Mod then some n else none
  else none

/-- The error surface of the comparator; the spec names the parse failure `InvalidVersion`
(the Rust code surfaces the `ParseIntError` through `anyhow`). -/
inductive MigrationError where
  | invalidVersion
deriving DecidableEq, Repr

/-- Embeds `compare_versions` from `utils/src/migration.rs`: strip leading `'v'`s from
both inputs, parse both as `u32` (failure of either is an error), then compare:
greater / less / equal, mirroring the two `if` statements of the source. -/
def compare_versions (version1 version2 : String) : Except MigrationError Ordering :=
  match parseU32 (trimStartMatchesV version1.data), parseU32 (trimStartMatchesV version2.data) with
  | some v1_parts, some v2_parts =>
    if v1_parts > v2_parts then .ok .gt
    else if v2_parts > v1_parts then .ok .lt
    else .ok .eq
  | _, _ => .error .invalidVersion

/-- Formalisation of the claim's phrase "of the form `v<N>` with `<N>` a non-negative
decimal integer": a single leading `'v'` followed by one or more digits. -/
def versionFormSpec (s : String) : Bool :=
  match s.data with
  | 'v' :: rest => !rest.isEmpty && rest.all Char.isDigit
  | _ => false

/-! ## CRD lifecycle manager (`operator-k8s/src/operator.rs`, `Operator::prepare_crd`) -/

/-- A write issued against the CRD object on the API server. -/
inductive CrdWrite where
  | create
  | patchMerge
deriving DecidableEq, Repr

/-- Fatal startup failure of the CRD manager (the `assert!` in `prepare_crd`). -/
inductive CrdError where
  | incompatible
deriving DecidableEq, Repr

/-- Embeds the decision logic of `Operator::prepare_crd`.

Modelled from the spec: the type `utils::migration::ApiVersion` that `prepare_crd`
parses version names into is not under `src/` (only `compare_versions` is); per spec
§4.1 versions have the form `v<N>` and are totally ordered by the integer `N`, so a
version here is its parsed integer `N : Nat` and the order is the integer order.

Inputs: `createCrd` is the `--create_crd` flag, `present` is the list of parsed version
entries found on the API server for the managed kind (`none` when the CRD is absent),
`embedded` is the operator's compiled-in version.  Output: the list of writes issued,
or the fatal incompatibility error. -/
def prepare_crd (createCrd : Bool) (present : Option (List Nat)) (embedded : Nat) :
    Except CrdError (List CrdWrite) :=
  match present with
  | none => .ok [.create]
  | some versions =>
    if versions.all (fun ver => ver < embedded) then .ok [.patchMerge]
    else if ¬(createCrd ∨ ¬versions.any (fun ver => embedded < ver)) then .error .incompatible
    else if createCrd then .ok [.patchMerge]
    else .ok []

/-! ## Cluster reconciler data model (`deploy/src/controller/cluster.rs`)

The Kubernetes object types are modelled with exactly the fields the controller
reads or writes; every other field is left at its library default by the source
(`..Default::default()`) and plays no role in the claims. -/

/-- Reserved backup mount path, `DEFAULT_BACKUP_DIR` (`operator-api/src/consts.rs`;
`deploy` imports it as `utils::consts::DEFAULT_BACKUP_DIR`). -/
def DEFAULT_BACKUP_DIR : String := "/xline-backup"

/-- Reserved data mount path, `DEFAULT_DATA_DIR`. -/
def DEFAULT_DATA_DIR : String := "/usr/local/xline/data-dir"

/-- Embeds Rust `str::starts_with(&str)`: character-prefix test. -/
def strStartsWith (s pre : String) : Bool := pre.data.isPrefixOf s.data

/-- `k8s_openapi` `VolumeMount`, fields used by the controller. -/
structure VolumeMount where
  mount_path : String
  name : String
deriving DecidableEq, Repr

/-- `k8s_openapi` `ContainerPort`, fields used by the controller. -/
structure ContainerPort where
  name : Option String
  container_port : Int
deriving DecidableEq, Repr

/-- `k8s_openapi` `ServicePort`, fields set by the controller. -/
structure ServicePort where
  name : Option String
  port : Int
deriving DecidableEq, Repr

/-- `k8s_openapi` `OwnerReference`; the controller derives it from the parent via
`controller_owner_ref` and only threads it through, so only the referent name is kept. -/
structure OwnerReference where
  name : String
deriving DecidableEq, Repr

/-- `k8s_openapi` `ObjectMeta`, fields used by the controller. -/
structure ObjectMeta where
  name : Option String := none
  namespace' : Option String := none
  labels : Option (List (String × String)) := none
  owner_references : Option (List OwnerReference) := none
deriving DecidableEq, Repr

/-- `k8s_openapi` `PersistentVolumeClaim`, fields used by the controller. -/
structure PersistentVolumeClaim where
  metadata : ObjectMeta
deriving DecidableEq, Repr

/-- `k8s_openapi` `Container`, fields used by the controller. -/
structure Container where
  name : String
  image : Option String := none
  image_pull_policy : Option String := none
  command : Option (List String) := none
  ports : Option (List ContainerPort) := none
  volume_mounts : Option (List VolumeMount) := none
deriving DecidableEq, Repr

/-- `StorageSpec` of the CRD (`deploy/src/crd.rs`, shape visible from its uses in
`cluster.rs`): a tagged variant, S3 or PVC. -/
inductive StorageSpec where
  | s3 (bucket : String)
  | pvc (pvc : PersistentVolumeClaim)
deriving DecidableEq, Repr

/-- `BackupSpec` of the CRD: cron schedule plus storage variant. -/
structure BackupSpec where
  cron : String
  storage : StorageSpec
deriving DecidableEq, Repr

/-- The `XlineCluster` spec (spec §3; field uses visible in `cluster.rs`). -/
structure ClusterSpec where
  size : Int
  container : Container
  backup : Option BackupSpec := none
  data : Option PersistentVolumeClaim := none
  pvcs : Option (List PersistentVolumeClaim) := none
deriving DecidableEq, Repr

/-- The observed `XlineCluster` resource. -/
structure Cluster where
  metadata : ObjectMeta
  spec : ClusterSpec
deriving DecidableEq, Repr

/-- The reconciler's error type (`enum Error` in `cluster.rs`).  `kube` transport
errors are not produced by the embedding: an issued apply is recorded as an action. -/
inductive Error where
  | MissingObject (field : String)
  | Kube
  | CannotMount (path : String)
deriving DecidableEq, Repr

/-- `k8s_openapi` `ServiceSpec`, fields set in `apply_headless_service`. -/
structure ServiceSpec where
  cluster_ip : Option String
  ports : Option (List ServicePort)
  selector : Option (List (String × String))
deriving DecidableEq, Repr

/-- `k8s_openapi` `Service`, as built in `apply_headless_service`. -/
structure Service where
  metadata : ObjectMeta
  spec : Option ServiceSpec
deriving DecidableEq, Repr

/-- `k8s_openapi` `StatefulSetSpec`, fields set in `apply_statefulset`.  The update
strategy is flattened to its only set leaf, `rollingUpdate.maxUnavailable`. -/
structure StatefulSetSpec where
  replicas : Option Int
  selector_match_labels : Option (List (String × String))
  service_name : String
  volume_claim_templates : Option (List PersistentVolumeClaim)
  max_unavailable : Option String
  template_labels : Option (List (String × String))
  containers : List Container
deriving DecidableEq, Repr

/-- `k8s_openapi` `StatefulSet`, as built in `apply_statefulset`. -/
structure StatefulSet where
  metadata : ObjectMeta
  spec : Option StatefulSetSpec
deriving DecidableEq, Repr

/-- `k8s_openapi` `CronJob`, fields set in `apply_backup_cron_job` (the job template
is flattened to its single container and the pod restart policy). -/
structure CronJob where
  metadata : ObjectMeta
  concurrency_policy : Option String
  schedule : String
  job_container : Container
  restart_policy : Option String
deriving DecidableEq, Repr

/-- A server-side-apply patch issued by the reconciler, in issue order. -/
inductive ApplyAction where
  | service (name : String) (svc : Service)
  | statefulset (name : String) (sts : StatefulSet)
  | cronjob (name : String) (cj : CronJob)
deriving DecidableEq, Repr

/-- Kind tag of an issued apply, for stating which children were patched. -/
inductive ApplyKind where
  | service
  | statefulset
  | cronjob
deriving DecidableEq, Repr

/-- Kind of an issued apply. -/
def ApplyAction.kind : ApplyAction → ApplyKind
  | .service .. => .service
  | .statefulset .. => .statefulset
  | .cronjob .. => .cronjob

/-- Embeds `ClusterController::extract_service_ports`: expose every container port,
keeping name and port number; `MissingObject(".spec.container.ports")` when the
`ports` field is absent. -/
def extract_service_ports (cluster : Cluster) : Except Error (List ServicePort) :=
  match cluster.spec.container.ports with
  | some v => .ok (v.map fun port => { name := port.name, port := port.container_port })
  | none => .error (.MissingObject ".spec.container.ports")

/-- Embeds `ClusterController::extract_pvcs`: backup PVC when the backup storage is
the PVC variant, then the data PVC when declared, then the user-supplied list. -/
def extract_pvcs (cluster : Cluster) : List PersistentVolumeClaim :=
  let pvcs : List PersistentVolumeClaim := []
  let pvcs := match cluster.spec.backup with
    | some spec =>
      match spec.storage with
      | .pvc pvc => pvcs ++ [pvc]
      | .s3 _ => pvcs
    | none => pvcs
  let pvcs := match cluster.spec.data with
    | some pvc => pvcs ++ [pvc]
    | none => pvcs
  let pvcs := match cluster.spec.pvcs with
    | some spec_pvcs => pvcs ++ spec_pvcs
    | none => pvcs
  pvcs

/-- Embeds `ClusterController::extract_owner_ref` (always derivable; carries the
parent's name). -/
def extract_owner_ref (cluster : Cluster) : OwnerReference :=
  { name := cluster.metadata.name.getD "" }

/-- Embeds `ClusterController::extract_id`: namespace then name, each
`MissingObject` when absent. -/
def extract_id (cluster : Cluster) : Except Error (String × String) :=
  match cluster.metadata.namespace' with
  | none => .error (.MissingObject ".metadata.namespace")
  | some namespace' =>
    match cluster.metadata.name with
    | none => .error (.MissingObject ".metadata.name")
    | some name => .ok (namespace', name)

/-- Embeds `ClusterController::build_metadata`: shared labels `app = name`, shared
name/namespace, single owner reference. -/
def build_metadata (namespace' name : String) (owner_ref : OwnerReference) : ObjectMeta :=
  { labels := some [("app", name)]
    name := some name
    namespace' := some namespace'
    owner_references := some [owner_ref] }

/-- The `Service` payload of `apply_headless_service`: headless (no cluster IP),
ports as extracted, selector = shared labels. -/
def build_service (metadata : ObjectMeta) (service_ports : List ServicePort) : Service :=
  { metadata := metadata
    spec := some
      { cluster_ip := none
        ports := some service_ports
        selector := metadata.labels } }

/-- The `backup_mount` computation of `apply_statefulset`: with a PVC-backed backup the
claim must carry a name (`MissingObject` otherwise) and a mount at the reserved backup
directory is produced; S3 backups and absent backups mount nothing. -/
def backupMountOf (backup : Option BackupSpec) : Except Error (Option VolumeMount) :=
  match backup with
  | some spec =>
    match spec.storage with
    | .s3 _ => .ok none
    | .pvc pvc =>
      match pvc.metadata.name with
      | some n => .ok (some { mount_path := DEFAULT_BACKUP_DIR, name := n })
      | none => .error (.MissingObject ".spec.backup.pvc.metadata.name")
  | none => .ok none

/-- The `data_mount` computation of `apply_statefulset`: a declared data PVC must carry
a name and is mounted at the reserved data directory. -/
def dataMountOf (data : Option PersistentVolumeClaim) : Except Error (Option VolumeMount) :=
  match data with
  | some pvc =>
    match pvc.metadata.name with
    | some n => .ok (some { mount_path := DEFAULT_DATA_DIR, name := n })
    | none => .error (.MissingObject ".spec.data.metadata.name")
  | none => .ok none

/-- The user-mount validation of `apply_statefulset`: a mount path starting with the
reserved backup directory fails first, then one starting with the reserved data
directory; otherwise the user mounts are kept (no `volume_mounts` means none). -/
def validatedMounts (volume_mounts : Option (List VolumeMount)) :
    Except Error (List VolumeMount) :=
  match volume_mounts with
  | some spec_mounts =>
    if spec_mounts.any fun mount => strStartsWith mount.mount_path DEFAULT_BACKUP_DIR then
      .error (.CannotMount DEFAULT_BACKUP_DIR)
    else if spec_mounts.any fun mount => strStartsWith mount.mount_path DEFAULT_DATA_DIR then
      .error (.CannotMount DEFAULT_DATA_DIR)
    else .ok spec_mounts
  | none => .ok []

/-- The pure core of `apply_statefulset`: computes the backup and data mounts, validates
the user mounts against the reserved directories, and assembles the `StatefulSet`
payload with the user mounts first, then the backup mount, then the data mount; errors
exactly where the source returns early. -/
def build_statefulset (name : String) (cluster : Cluster)
    (pvcs : List PersistentVolumeClaim) (metadata : ObjectMeta) :
    Except Error StatefulSet :=
  match backupMountOf cluster.spec.backup with
  | .error e => .error e
  | .ok backup_mount =>
    match dataMountOf cluster.spec.data with
    | .error e => .error e
    | .ok data_mount =>
      match validatedMounts cluster.spec.container.volume_mounts with
      | .error e => .error e
      | .ok mounts =>
        let mounts := mounts ++ backup_mount.toList ++ data_mount.toList
        let container := { cluster.spec.container with volume_mounts := some mounts }
        .ok
          { metadata := metadata
            spec := some
              { replicas := some cluster.spec.size
                selector_match_labels := metadata.labels
                service_name := name
                volume_claim_templates := some pvcs
                max_unavailable := some "50%"
                template_labels := metadata.labels
                containers := [container] } }

/-- The `CronJob` payload of `apply_backup_cron_job`: `Forbid` concurrency, schedule
copied from the spec, a single curl container hitting a random pod's backup route,
restart policy `OnFailure`. -/
def build_backup_cron_job (namespace' name : String) (size : Int) (cron : String)
    (metadata : ObjectMeta) (cluster_suffix : String) : CronJob :=
  let trigger_cmd : List String :=
    [ "/bin/sh", "-ecx",
      "curl " ++ name ++ "-$((RANDOM % " ++ toString size ++ "))." ++ name ++ "."
        ++ namespace' ++ ".svc." ++ cluster_suffix ++ "/backup" ]
  { metadata := metadata
    concurrency_policy := some "Forbid"
    schedule := cron
    job_container :=
      { name := name ++ "-backup-cronjob"
        image_pull_policy := some "IfNotPresent"
        image := some "curlimages/curl"
        command := some trigger_cmd }
    restart_policy := some "OnFailure" }

/-- Embeds `ClusterController::reconcile_once`.  Returns the apply patches actually
issued to the API server, in order, and the error the reconcile returned (if any).
Each `await`ed apply is recorded before the next step runs, so an early error keeps
the patches already sent: the headless service is applied before `apply_statefulset`
runs its mount validation. -/
def reconcile_once (cluster_suffix : String) (cluster : Cluster) :
    List ApplyAction × Option Error :=
  match extract_id cluster with
  | .error e => ([], some e)
  | .ok (namespace', name) =>
    match extract_service_ports cluster with
    | .error e => ([], some e)
    | .ok service_ports =>
      match build_statefulset name cluster (extract_pvcs cluster)
          (build_metadata namespace' name (extract_owner_ref cluster)) with
      | .error e =>
        ([ApplyAction.service name
            (build_service (build_metadata namespace' name (extract_owner_ref cluster))
              service_ports)],
         some e)
      | .ok sts =>
        match cluster.spec.backup with
        | some spec =>
          ([ApplyAction.service name
              (build_service (build_metadata namespace' name (extract_owner_ref cluster))
                service_ports),
            ApplyAction.statefulset name sts,
            ApplyAction.cronjob name
              (build_backup_cron_job namespace' name cluster.spec.size spec.cron
                (build_metadata namespace' name (extract_owner_ref cluster)) cluster_suffix)],
           none)
        | none =>
          ([ApplyAction.service name
              (build_service (build_metadata namespace' name (extract_owner_ref cluster))
                service_ports),
            ApplyAction.statefulset name sts],
           none)

/-- Volume-claim templates of a built stateful workload, when present. -/
def StatefulSet.vcts (sts : StatefulSet) : Option (List PersistentVolumeClaim) :=
  match sts.spec with
  | some s => s.volume_claim_templates
  | none => none

/-- The stateful-workload payload patched by a reconcile run, if one was issued. -/
def reconciledStatefulset (cluster_suffix : String) (cluster : Cluster) :
    Option StatefulSet :=
  (reconcile_once cluster_suffix cluster).1.foldr
    (fun a acc => match a with
      | .statefulset _ sts => some sts
      | _ => acc)
    none

/-! ## Liveness aggregator (`deploy/src/sidecar_state.rs`)

`HashMap` state is modelled as an association list with distinct keys; insertion
overwrites in place, a fresh key is appended.  Rust's `HashMap` iteration order is
unspecified, so the embedding fixes first-insertion order; every property claimed
below is insensitive to the iteration order (each key's loop body touches only that
key's `unreachable` entry and emits only actions naming that key). -/

/-- `operator_api::HeartbeatStatus`; its `Ord` instance compares timestamps only. -/
structure HeartbeatStatus where
  id : String
  timestamp : Nat
  reachable_ids : List String
deriving DecidableEq, Repr

/-- Timestamp order on heartbeat statuses (the `Ord` impl in `operator-api/src/lib.rs`). -/
def tsLe (a b : HeartbeatStatus) : Prop := a.timestamp ≤ b.timestamp

instance : DecidableRel tsLe := fun a b => Nat.decLe a.timestamp b.timestamp

/-- Map insert: overwrite the entry of an existing key in place, append a fresh key. -/
def upsert {β : Type} (k : String) (v : β) : List (String × β) → List (String × β)
  | [] => [(k, v)]
  | (k', v') :: rest => if k' = k then (k, v) :: rest else (k', v') :: upsert k v rest

/-- Map lookup: value of the first entry with the given key. -/
def lookupA {β : Type} (k : String) : List (String × β) → Option β
  | [] => none
  | (k', v') :: rest => if k' = k then some v' else lookupA k rest

/-- Map remove: drop the first entry with the given key. -/
def eraseA {β : Type} (k : String) : List (String × β) → List (String × β)
  | [] => []
  | (k', v') :: rest => if k' = k then rest else (k', v') :: eraseA k rest

/-- The aggregator's mutable state: `statuses` (latest report per sidecar id) and the
`unreachable` recovery-attempt counters. -/
structure SidecarState where
  statuses : List (String × HeartbeatStatus)
  unreachable : List (String × Nat)
deriving DecidableEq, Repr

/-- Effects of one aggregator round: a pod-delete call for an id, the error log when
that call fails, and the error log emitted when a counter reaches the threshold
(`failed to recover the operator`). -/
inductive AggAction where
  | deletePod (id : String)
  | logDeleteFail (id : String)
  | logRecoverFail (id : String)
deriving DecidableEq, Repr

/-- The id an action names. -/
def AggAction.aid : AggAction → String
  | .deletePod id => id
  | .logDeleteFail id => id
  | .logRecoverFail id => id

/-- The accepted window of a round: sort the current statuses by timestamp (Rust's
stable `sort` by the timestamp `Ord`, embedded as stable insertion sort), reverse to
descending order, and keep the prefix whose (wrapping) `timestamp + heartbeat_period`
is at least the newest timestamp. -/
def roundAccepted (heartbeat_period : Nat) (statuses : List (String × HeartbeatStatus)) :
    List HeartbeatStatus :=
  let sorted := (List.insertionSort tsLe (statuses.map Prod.snd)).reverse
  match sorted.head? with
  | none => []
  | some latest =>
    sorted.takeWhile fun s => (s.timestamp + heartbeat_period) % u64Mod ≥ latest.timestamp

/-- `reachable_counts` of a round: occurrences of an id across the accepted reports'
`reachable_ids` (absent ids count 0, as `unwrap_or_else(|| 0)` in the source). -/
def countReach (accepted : List HeartbeatStatus) (id : String) : Nat :=
  ((accepted.map fun s => s.reachable_ids).flatten).count id

/-- The body of the per-id loop of `state_update_task`, acting on the `unreachable`
map and the emitted actions.  `failIds` is the environment: ids whose pod-delete call
fails this round (the result is logged and otherwise ignored by the source). -/
def updateOne (majority unreachable_thresh : Nat) (counts : String → Nat)
    (failIds : List String) (acc : List (String × Nat) × List AggAction) (id : String) :
    List (String × Nat) × List AggAction :=
  let (unreachable, acts) := acc
  if counts id < majority then
    match lookupA id unreachable with
    | some cnt =>
      let cnt' := (cnt + 1) % u64Mod
      let unreachable' := upsert id cnt' unreachable
      if cnt' = unreachable_thresh then
        (eraseA id unreachable', acts ++ [.logRecoverFail id])
      else (unreachable', acts)
    | none =>
      let acts := acts ++
        (if id ∈ failIds then [.deletePod id, .logDeleteFail id] else [.deletePod id])
      (upsert id 0 unreachable, acts)
  else
    (eraseA id unreachable, acts)

/-- One iteration of the receive loop of `SidecarState::state_update_task`: insert the
report, compute the accepted window, exit early when it is smaller than the majority,
otherwise run the per-id loop over all known ids. -/
def step (heartbeat_period unreachable_thresh majority : Nat) (failIds : List String)
    (s : SidecarState) (r : HeartbeatStatus) : SidecarState × List AggAction :=
  let statuses := upsert r.id r s.statuses
  let accepted := roundAccepted heartbeat_period statuses
  if accepted.length < majority then
    ({ statuses := statuses, unreachable := s.unreachable }, [])
  else
    let result := (statuses.map Prod.fst).foldl
      (updateOne majority unreachable_thresh (countReach accepted) failIds)
      (s.unreachable, [])
    ({ statuses := statuses, unreachable := result.1 }, result.2)

/-- Processing of a report sequence; each report is paired with the set of ids whose
pod-delete call would fail during its round. -/
def runAgg (heartbeat_period unreachable_thresh majority : Nat) (s : SidecarState) :
    List (HeartbeatStatus × List String) → SidecarState × List AggAction
  | [] => (s, [])
  | (r, failIds) :: rest =>
    let out := step heartbeat_period unreachable_thresh majority failIds s r
    let outRest := runAgg heartbeat_period unreachable_thresh majority out.1 rest
    (outRest.1, out.2 ++ outRest.2)

/-- Processing of a report sequence in which every pod-delete call succeeds. -/
def runOk (heartbeat_period unreachable_thresh majority : Nat) (s : SidecarState)
    (reports : List HeartbeatStatus) : SidecarState × List AggAction :=
  runAgg heartbeat_period unreachable_thresh majority s (reports.map fun r => (r, []))

/-- The empty aggregator state. -/
def agg0 : SidecarState := { statuses := [], unreachable := [] }

/-- The per-id effect of one qualifying round on the id's `unreachable` entry and the
actions emitted for it, as a function of the entry before the round.  This is the
specification the per-id loop of `state_update_task` is proved to realise. -/
def idRoundEffect (majority unreachable_thresh : Nat) (counts : String → Nat)
    (failIds : List String) (k : String) (prev : Option Nat) :
    Option Nat × List AggAction :=
  if counts k < majority then
    match prev with
    | some cnt =>
      let cnt' := (cnt + 1) % u64Mod
      if cnt' = unreachable_thresh then (none, [.logRecoverFail k]) else (some cnt', [])
    | none =>
      (some 0, if k ∈ failIds then [.deletePod k, .logDeleteFail k] else [.deletePod k])
  else (none, [])

/-! ## Concrete inputs used by the claims -/

/-- The claim C1 / spec §8 report sequence (`majority = 2`, `heartbeat_period = 10`,
`unreachable_threshold = 2`). -/
def c1Reports : List HeartbeatStatus :=
  [ ⟨"A", 100, ["A", "B", "C"]⟩, ⟨"B", 100, ["A", "B", "C"]⟩, ⟨"C", 100, ["A", "B", "C"]⟩,
    ⟨"A", 110, ["A"]⟩, ⟨"B", 110, ["B"]⟩,
    ⟨"A", 120, ["A"]⟩, ⟨"B", 120, ["B"]⟩,
    ⟨"A", 130, ["A"]⟩, ⟨"B", 130, ["B"]⟩ ]

/-- The claim C4 / spec §8 recency sequence. -/
def c4Reports : List HeartbeatStatus :=
  [ ⟨"A", 100, ["A", "B", "C"]⟩, ⟨"B", 100, ["A", "B", "C"]⟩, ⟨"A", 200, ["A"]⟩ ]

/-- The first five C1 reports with the pod-delete call for `C` failing when it is
issued (at `B@110`). -/
def c6Reports : List (HeartbeatStatus × List String) :=
  [ (⟨"A", 100, ["A", "B", "C"]⟩, []), (⟨"B", 100, ["A", "B", "C"]⟩, []),
    (⟨"C", 100, ["A", "B", "C"]⟩, []), (⟨"A", 110, ["A"]⟩, []),
    (⟨"B", 110, ["B"]⟩, ["C"]) ]

/-- Aggregator state after the five `c6Reports` (C cached at counter 0). -/
def c6S5 : SidecarState := (runAgg 10 2 2 agg0 c6Reports).1

/-- Aggregator state after the first six C1 reports (C cached at counter 1). -/
def c1S6 : SidecarState := (runOk 10 2 2 agg0 (c1Reports.take 6)).1

/-- A bootstrap sequence leaving `C` known but persistently unreachable: C reports
once, then A and B each report reaching only `{A, B}`. -/
def c10Prefix : List HeartbeatStatus :=
  [ ⟨"C", 100, ["A", "B", "C"]⟩, ⟨"A", 100, ["A", "B"]⟩, ⟨"B", 100, ["A", "B"]⟩ ]

/-- One further round of reports from A and B with C still unreachable. -/
def c10Pair : List HeartbeatStatus := [⟨"A", 100, ["A", "B"]⟩, ⟨"B", 100, ["A", "B"]⟩]

/-- `n` repetitions of `c10Pair`. -/
def nPairs : Nat → List HeartbeatStatus
  | 0 => []
  | n + 1 => c10Pair ++ nPairs n

/-- Aggregator state after `c10Prefix` with `unreachable_thresh = 1`. -/
def c10State : SidecarState := (runOk 10 1 2 agg0 c10Prefix).1

/-- A container port for the sample clusters. -/
def portX : ContainerPort := { name := some "xline", container_port := 2379 }

/-- Sample cluster whose container mounts a path under the reserved backup directory. -/
def c2Cluster : Cluster :=
  { metadata := { name := some "my-xline", namespace' := some "default" }
    spec :=
      { size := 3
        container :=
          { name := "xline"
            ports := some [portX]
            volume_mounts := some [{ mount_path := "/xline-backup/sub", name := "user-vol" }] } } }

/-- Sample cluster whose `container.ports` is present but empty. -/
def c3Cluster : Cluster :=
  { metadata := { name := some "my-xline", namespace' := some "default" }
    spec := { size := 3, container := { name := "xline", ports := some [] } } }

/-- Sample cluster whose `container.ports` field is absent. -/
def c3ClusterNoPorts : Cluster :=
  { metadata := { name := some "my-xline", namespace' := some "default" }
    spec := { size := 3, container := { name := "xline", ports := none } } }

/-- Sample PVCs for the volume-claim-template ordering claim. -/
def pvcB : PersistentVolumeClaim := { metadata := { name := some "backup-pvc" } }

/-- Data PVC sample. -/
def pvcD : PersistentVolumeClaim := { metadata := { name := some "data-pvc" } }

/-- User-supplied PVC sample. -/
def pvcU : PersistentVolumeClaim := { metadata := { name := some "user-pvc" } }

/-- Sample cluster with a PVC backup, a data PVC and one user-supplied PVC. -/
def c7Cluster : Cluster :=
  { metadata := { name := some "my-xline", namespace' := some "default" }
    spec :=
      { size := 3
        container := { name := "xline", ports := some [portX] }
        backup := some { cron := "0 0 * * *", storage := .pvc pvcB }
        data := some pvcD
        pvcs := some [pvcU] } }

/-- The stateful workload patched when reconciling `c7Cluster`. -/
def c7Sts : StatefulSet :=
  (reconciledStatefulset "cluster.local" c7Cluster).getD { metadata := {}, spec := none }

/-- The volume-claim-template order the spec claims: the backup PVC when the backup
storage is the PVC variant, then the data PVC when declared, then the user-supplied
list in input order.  (Stated from the spec's words; compared with `extract_pvcs`.) -/
def claimedPvcOrder (cluster : Cluster) : List PersistentVolumeClaim :=
  (match cluster.spec.backup with
    | some spec =>
      match spec.storage with
      | .pvc pvc => [pvc]
      | .s3 _ => []
    | none => [])
  ++ (match cluster.spec.data with
    | some pvc => [pvc]
    | none => [])
  ++ cluster.spec.pvcs.getD []

/-! ## Version comparator: claims C8 and C9 -/

/-- C8 counterexample: `"vv1"` is not of the form `v<N>`, yet `compare_versions`
accepts it (all leading `'v'`s are stripped), returning `Equal` against `"v1"`
instead of failing with `InvalidVersion`. -/
theorem c8_counterexample :
    versionFormSpec "vv1" = false ∧
    compare_versions "vv1" "v1" = .ok .eq := by
  decide

/-- C8 amended: `compare_versions` fails with `InvalidVersion` exactly when, after
stripping every leading `'v'`, either input is not a valid `u32` decimal (optionally
`'+'`-signed, value below `2 ^ 32`); in particular `compare("vx", "v1")` fails. -/
theorem c8_amended :
    (∀ version1 version2 : String,
      compare_versions version1 version2 = .error .invalidVersion ↔
        (parseU32 (trimStartMatchesV version1.data) = none ∨
          parseU32 (trimStartMatchesV version2.data) = none))
    ∧ compare_versions "vx" "v1" = .error .invalidVersion := by
  refine ⟨?_, by decide⟩
  intro version1 version2
  unfold compare_versions
  cases h1 : parseU32 (trimStartMatchesV version1.data) <;>
    cases h2 : parseU32 (trimStartMatchesV version2.data) <;>
      simp [h1, h2]
  split_ifs <;> simp

/-- C9 counterexample: `"v4294967296"` is of the form `v<N>` (a valid version string
per the spec), yet the comparator fails with `InvalidVersion` on it, because the
parsed suffix overflows `u32`. -/
theorem c9_counterexample :
    versionFormSpec "v4294967296" = true ∧
    compare_versions "v4294967296" "v1" = .error .invalidVersion := by
  decide

/-- C9 amended: for every pair of inputs the parser accepts (in particular every
`v<a>`, `v<b>` with `a, b < 2 ^ 32`), `compare_versions` succeeds and returns exactly
one of Less, Equal, Greater, equal to the integer ordering of the parsed values; the
three concrete examples of the claim hold. -/
theorem c9_amended :
    (∀ (version1 version2 : String) (a b : Nat),
      parseU32 (trimStartMatchesV version1.data) = some a →
      parseU32 (trimStartMatchesV version2.data) = some b →
      ∃ r, compare_versions version1 version2 = .ok r ∧
        (r = .lt ↔ a < b) ∧ (r = .eq ↔ a = b) ∧ (r = .gt ↔ b < a))
    ∧ compare_versions "v10" "v2" = .ok .gt
    ∧ compare_versions "v1" "v1" = .ok .eq
    ∧ compare_versions "v2" "v10" = .ok .lt := by
  refine ⟨?_, by decide, by decide, by decide⟩
  intro version1 version2 a b h1 h2
  unfold compare_versions
  rw [h1, h2]
  rcases Nat.lt_trichotomy a b with h | h | h
  · have hgt : ¬a > b := by omega
    refine ⟨.lt, by simp [hgt, h], by simp [h], ?_, ?_⟩ <;> simp <;> omega
  · subst h
    have hgt : ¬a > a := by omega
    refine ⟨.eq, by simp [hgt], by simp, by simp, by simp⟩
  · refine ⟨.gt, by simp [h], ?_, ?_, by simp [h]⟩ <;> simp <;> omega

/-- C9 witness: the amended statement applied at `"v3"`, `"v5"`. -/
theorem c9_witness :
    ∃ r, compare_versions "v3" "v5" = .ok r ∧
      (r = .lt ↔ (3 : Nat) < 5) ∧ (r = .eq ↔ (3 : Nat) = 5) ∧ (r = .gt ↔ (5 : Nat) < 3) :=
  c9_amended.1 "v3" "v5" 3 5 (by decide) (by decide)

/-! ## CRD lifecycle: claim C5 -/

/-- C5 counterexample: with the force-create flag set and the embedded version equal
to the (only) present version — none strictly greater — `prepare_crd` still issues a
merge patch, so the claimed unconditional no-op fails. -/
theorem c5_counterexample :
    prepare_crd true (some [1]) 1 = .ok [.patchMerge] := by
  decide

/-- C5 amended: when the force-create flag is unset, the embedded schema version
equals one of the present versions, and no present version is strictly greater,
the CRD manager performs no write (neither a create nor a patch). -/
theorem c5_amended (present : List Nat) (embedded : Nat)
    (hmem : embedded ∈ present) (hnogt : ∀ v ∈ present, ¬embedded < v) :
    prepare_crd false (some present) embedded = .ok [] := by
  unfold prepare_crd
  have h1 : present.all (fun ver => decide (ver < embedded)) = false := by
    rw [List.all_eq_false]
    exact ⟨embedded, hmem, by simp⟩
  have h2 : present.any (fun ver => decide (embedded < ver)) = false := by
    rw [List.any_eq_false]
    intro v hv
    simpa using hnogt v hv
  simp [h1, h2]

/-- C5 witness: the amended statement applied at present versions `[3, 5]` and
embedded version `5`. -/
theorem c5_witness : prepare_crd false (some [3, 5]) 5 = .ok [] :=
  c5_amended [3, 5] 5 (by decide) (by decide)

/-! ## Aggregator traces: claims C1 and C4 -/

/-- C1 counterexample: running the claimed report sequence from the empty state with
`heartbeat_period = 10`, `unreachable_threshold = 2`, `majority = 2` issues six
pod-delete calls in total, two of them for `C` — not exactly one delete with no
further delete after the threshold. -/
theorem c1_counterexample :
    (runOk 10 2 2 agg0 c1Reports).2.count (AggAction.deletePod "C") = 2 ∧
    ((runOk 10 2 2 agg0 c1Reports).2.filter fun a =>
        match a with
        | .deletePod _ => true
        | _ => false).length = 6 := by
  decide

/-- C1 amended: on the claimed sequence, exactly one delete (for `C`) has been issued
once `B@110` is processed, with `unreachable = {C: 0}` — but processing `A@120` also
deletes `A` and `B` (their latest reports fall below majority mid-pair), and `C`
already reaches the threshold at `B@120`, where the error log names `C` and `C` is
removed, leaving `unreachable = {A: 1, B: 1}`; during the `t=130` pair `A` and `B`
reach the threshold and are removed, `C` (no longer cached) is deleted afresh and
re-inserted at counter 0, and `A` and `B` are deleted afresh, for six deletes in
total and final `unreachable = {C: 1, A: 0, B: 0}`. -/
theorem c1_amended :
    runOk 10 2 2 agg0 (c1Reports.take 5) =
      ({ statuses :=
          [ ("A", ⟨"A", 110, ["A"]⟩), ("B", ⟨"B", 110, ["B"]⟩),
            ("C", ⟨"C", 100, ["A", "B", "C"]⟩) ],
         unreachable := [("C", 0)] },
       [.deletePod "C"])
    ∧ runOk 10 2 2 agg0 (c1Reports.take 7) =
      ({ statuses :=
          [ ("A", ⟨"A", 120, ["A"]⟩), ("B", ⟨"B", 120, ["B"]⟩),
            ("C", ⟨"C", 100, ["A", "B", "C"]⟩) ],
         unreachable := [("A", 1), ("B", 1)] },
       [.deletePod "C", .deletePod "A", .deletePod "B", .logRecoverFail "C"])
    ∧ runOk 10 2 2 agg0 c1Reports =
      ({ statuses :=
          [ ("A", ⟨"A", 130, ["A"]⟩), ("B", ⟨"B", 130, ["B"]⟩),
            ("C", ⟨"C", 100, ["A", "B", "C"]⟩) ],
         unreachable := [("C", 1), ("A", 0), ("B", 0)] },
       [.deletePod "C", .deletePod "A", .deletePod "B",
        .logRecoverFail "C", .logRecoverFail "A", .logRecoverFail "B",
        .deletePod "C", .deletePod "A", .deletePod "B"]) := by
  refine ⟨by decide, by decide, by decide⟩

/-- C4: after `A@100`, `B@100` and then only `A@200` (period 10, majority 2), the
accepted window holds only `A@200`; the rounds issue no pod deletion and leave
`unreachable` unchanged (empty). -/
theorem c4_recency_no_action :
    roundAccepted 10 (runOk 10 2 2 agg0 c4Reports).1.statuses = [⟨"A", 200, ["A"]⟩] ∧
    (runOk 10 2 2 agg0 c4Reports).2 = [] ∧
    (runOk 10 2 2 agg0 c4Reports).1.unreachable = [] := by
  decide

/-! ## Reconciler: claims C2, C3 and C7 -/

/-- A user mount under the reserved backup directory makes the mount validation fail
with `CannotMount(<backup dir>)` (the backup check runs first). -/
theorem validatedMounts_backup_err (spec_mounts : List VolumeMount) (m : VolumeMount)
    (hm : m ∈ spec_mounts) (hpre : strStartsWith m.mount_path DEFAULT_BACKUP_DIR = true) :
    validatedMounts (some spec_mounts) = .error (.CannotMount DEFAULT_BACKUP_DIR) := by
  unfold validatedMounts
  have hany : (spec_mounts.any fun mount =>
      strStartsWith mount.mount_path DEFAULT_BACKUP_DIR) = true :=
    List.any_eq_true.mpr ⟨m, hm, hpre⟩
  simp [hany]

/-- Reduction of `reconcile_once` once identity extraction and port extraction have
succeeded: the remaining behaviour is decided by `build_statefulset` and the backup
field. -/
theorem reconcile_once_ok_ports (cluster_suffix : String) (cluster : Cluster)
    (ns nm : String) (ports : List ServicePort)
    (hid : extract_id cluster = .ok (ns, nm))
    (hsp : extract_service_ports cluster = .ok ports) :
    reconcile_once cluster_suffix cluster =
      (match build_statefulset nm cluster (extract_pvcs cluster)
          (build_metadata ns nm (extract_owner_ref cluster)) with
        | .error e =>
          ([ApplyAction.service nm
              (build_service (build_metadata ns nm (extract_owner_ref cluster)) ports)],
           some e)
        | .ok sts =>
          match cluster.spec.backup with
          | some spec =>
            ([ApplyAction.service nm
                (build_service (build_metadata ns nm (extract_owner_ref cluster)) ports),
              ApplyAction.statefulset nm sts,
              ApplyAction.cronjob nm
                (build_backup_cron_job ns nm cluster.spec.size spec.cron
                  (build_metadata ns nm (extract_owner_ref cluster)) cluster_suffix)],
             none)
          | none =>
            ([ApplyAction.service nm
                (build_service (build_metadata ns nm (extract_owner_ref cluster)) ports),
              ApplyAction.statefulset nm sts],
             none)) := by
  unfold reconcile_once
  rw [hid, hsp]

/-- `build_statefulset` surfaces the `CannotMount` failure of the mount validation
whenever the backup- and data-mount computations succeed. -/
theorem build_statefulset_backup_err (name : String) (cluster : Cluster)
    (pvcs : List PersistentVolumeClaim) (metadata : ObjectMeta)
    (hb : ∃ bm, backupMountOf cluster.spec.backup = .ok bm)
    (hd : ∃ dm, dataMountOf cluster.spec.data = .ok dm)
    (hv : validatedMounts cluster.spec.container.volume_mounts =
      .error (.CannotMount DEFAULT_BACKUP_DIR)) :
    build_statefulset name cluster pvcs metadata = .error (.CannotMount DEFAULT_BACKUP_DIR) := by
  obtain ⟨bm, hbm⟩ := hb
  obtain ⟨dm, hdm⟩ := hd
  unfold build_statefulset
  rw [hbm, hdm, hv]

/-- A successfully built stateful workload carries exactly the volume-claim templates
it was given. -/
theorem build_statefulset_ok_vcts (name : String) (cluster : Cluster)
    (pvcs : List PersistentVolumeClaim) (metadata : ObjectMeta) (sts : StatefulSet)
    (h : build_statefulset name cluster pvcs metadata = .ok sts) :
    sts.vcts = some pvcs := by
  unfold build_statefulset at h
  cases hbm : backupMountOf cluster.spec.backup with
  | error e => rw [hbm] at h; simp at h
  | ok bm =>
    rw [hbm] at h
    cases hdm : dataMountOf cluster.spec.data with
    | error e => rw [hdm] at h; simp at h
    | ok dm =>
      rw [hdm] at h
      cases hvm : validatedMounts cluster.spec.container.volume_mounts with
      | error e => rw [hvm] at h; simp at h
      | ok mounts =>
        rw [hvm] at h
        simp only [Except.ok.injEq] at h
        rw [← h]
        simp [StatefulSet.vcts]

/-- `extract_pvcs` realises exactly the order the spec claims: backup PVC if the
backup storage is the PVC variant, then the data PVC if declared, then the
user-supplied list in input order. -/
theorem extract_pvcs_eq_claimed (cluster : Cluster) :
    extract_pvcs cluster = claimedPvcOrder cluster := by
  unfold extract_pvcs claimedPvcOrder
  cases hb : cluster.spec.backup with
  | none =>
    cases hd : cluster.spec.data <;> cases hp : cluster.spec.pvcs <;> simp
  | some spec =>
    cases hs : spec.storage <;>
      cases hd : cluster.spec.data <;> cases hp : cluster.spec.pvcs <;> simp

/-- C2 counterexample: reconciling a cluster whose container mounts
`/xline-backup/sub` returns `CannotMount(/xline-backup)`, but a child resource HAS
been applied: the server-side-apply patch for the headless service was already sent
before the stateful-set validation ran. -/
theorem c2_counterexample :
    (reconcile_once "cluster.local" c2Cluster).2 = some (.CannotMount "/xline-backup") ∧
    (reconcile_once "cluster.local" c2Cluster).1.map ApplyAction.kind = [.service] := by
  decide

/-- C2 amended: for every observed cluster with metadata present, a `ports` field,
succeeding backup/data mount computations and some user volume mount whose path
starts with the reserved backup directory, reconcile returns
`CannotMount(<backup dir>)` and neither the stateful workload nor the cron job is
applied — but the headless-service patch has already been sent. -/
theorem c2_amended (cluster_suffix : String) (cluster : Cluster) (ns nm : String)
    (ports : List ContainerPort) (spec_mounts : List VolumeMount) (m : VolumeMount)
    (hns : cluster.metadata.namespace' = some ns)
    (hnm : cluster.metadata.name = some nm)
    (hports : cluster.spec.container.ports = some ports)
    (hb : ∃ bm, backupMountOf cluster.spec.backup = .ok bm)
    (hd : ∃ dm, dataMountOf cluster.spec.data = .ok dm)
    (hms : cluster.spec.container.volume_mounts = some spec_mounts)
    (hm : m ∈ spec_mounts)
    (hpre : strStartsWith m.mount_path DEFAULT_BACKUP_DIR = true) :
    (reconcile_once cluster_suffix cluster).2 = some (.CannotMount DEFAULT_BACKUP_DIR) ∧
    (reconcile_once cluster_suffix cluster).1.map ApplyAction.kind = [.service] := by
  have hid : extract_id cluster = .ok (ns, nm) := by
    simp [extract_id, hns, hnm]
  have hsp : extract_service_ports cluster =
      .ok (ports.map fun port => { name := port.name, port := port.container_port }) := by
    simp [extract_service_ports, hports]
  have hbs : build_statefulset nm cluster (extract_pvcs cluster)
      (build_metadata ns nm (extract_owner_ref cluster)) =
      .error (.CannotMount DEFAULT_BACKUP_DIR) := by
    apply build_statefulset_backup_err _ _ _ _ hb hd
    rw [hms]
    exact validatedMounts_backup_err spec_mounts m hm hpre
  rw [reconcile_once_ok_ports cluster_suffix cluster ns nm _ hid hsp, hbs]
  simp [ApplyAction.kind]

/-- C2 witness: the amended statement applied at the sample cluster `c2Cluster`. -/
theorem c2_witness :
    (reconcile_once "cluster.local" c2Cluster).2 = some (.CannotMount DEFAULT_BACKUP_DIR) ∧
    (reconcile_once "cluster.local" c2Cluster).1.map ApplyAction.kind = [.service] :=
  c2_amended "cluster.local" c2Cluster "default" "my-xline" [portX]
    [{ mount_path := "/xline-backup/sub", name := "user-vol" }]
    { mount_path := "/xline-backup/sub", name := "user-vol" }
    rfl rfl rfl ⟨none, rfl⟩ ⟨none, rfl⟩ rfl (by decide) (by decide)

/-- C3 counterexample: a cluster whose `container.ports` is the explicitly empty list
reconciles without error — service and stateful-set patches are applied — instead of
failing with `MissingObject(".spec.container.ports")`. -/
theorem c3_counterexample :
    (reconcile_once "cluster.local" c3Cluster).2 = none ∧
    (reconcile_once "cluster.local" c3Cluster).1.map ApplyAction.kind =
      [.service, .statefulset] := by
  decide

/-- C3 amended: reconcile fails with `MissingObject(".spec.container.ports")` exactly
when the `ports` field is absent (for clusters with metadata present, before any
patch is sent); an explicitly empty ports list passes extraction and yields an empty
service-port list. -/
theorem c3_amended :
    (∀ (cluster_suffix : String) (cluster : Cluster) (ns nm : String),
      cluster.metadata.namespace' = some ns → cluster.metadata.name = some nm →
      cluster.spec.container.ports = none →
      reconcile_once cluster_suffix cluster =
        ([], some (.MissingObject ".spec.container.ports")))
    ∧ (∀ cluster : Cluster, cluster.spec.container.ports = some [] →
        extract_service_ports cluster = .ok []) := by
  constructor
  · intro cluster_suffix cluster ns nm hns hnm hports
    have hid : extract_id cluster = .ok (ns, nm) := by
      simp [extract_id, hns, hnm]
    unfold reconcile_once
    rw [hid]
    simp [extract_service_ports, hports]
  · intro cluster h
    simp [extract_service_ports, h]

/-- C3 witness: the amended statement applied at a portless sample cluster and at
`c3Cluster` (empty ports list). -/
theorem c3_witness :
    reconcile_once "cluster.local" c3ClusterNoPorts =
      ([], some (.MissingObject ".spec.container.ports")) ∧
    extract_service_ports c3Cluster = .ok [] :=
  ⟨c3_amended.1 "cluster.local" c3ClusterNoPorts "default" "my-xline" rfl rfl rfl,
   c3_amended.2 c3Cluster rfl⟩

/-- C7: whenever a reconcile run patches a stateful workload, its volume-claim
templates are exactly: the backup PVC if the backup storage is the PVC variant, then
the data PVC if declared, then the user-supplied list in input order. -/
theorem c7_vct_order (cluster_suffix : String) (cluster : Cluster) (sts : StatefulSet)
    (h : reconciledStatefulset cluster_suffix cluster = some sts) :
    sts.vcts = some (claimedPvcOrder cluster) := by
  rw [← extract_pvcs_eq_claimed]
  unfold reconciledStatefulset at h
  cases hid : extract_id cluster with
  | error e =>
    unfold reconcile_once at h
    rw [hid] at h
    simp at h
  | ok pr =>
    obtain ⟨ns, nm⟩ := pr
    cases hsp : extract_service_ports cluster with
    | error e =>
      unfold reconcile_once at h
      rw [hid, hsp] at h
      simp at h
    | ok ports =>
      rw [reconcile_once_ok_ports cluster_suffix cluster ns nm ports hid hsp] at h
      cases hbs : build_statefulset nm cluster (extract_pvcs cluster)
          (build_metadata ns nm (extract_owner_ref cluster)) with
      | error e => rw [hbs] at h; simp at h
      | ok sts' =>
        rw [hbs] at h
        have hsts : sts' = sts := by
          cases hbk : cluster.spec.backup with
          | none => rw [hbk] at h; simpa using h
          | some spec => rw [hbk] at h; simpa using h
        rw [← hsts]
        exact build_statefulset_ok_vcts nm cluster (extract_pvcs cluster)
          (build_metadata ns nm (extract_owner_ref cluster)) sts' hbs

/-- C7 witness: the order statement applied at the sample cluster `c7Cluster`, whose
backup is PVC-backed, data PVC is declared and one user PVC is supplied. -/
theorem c7_witness : StatefulSet.vcts c7Sts = some (claimedPvcOrder c7Cluster) :=
  c7_vct_order "cluster.local" c7Cluster c7Sts (by decide)

/-! ## Association-list lemmas for the aggregator maps -/

/-- After overwriting `k`, looking up `k` yields the new value. -/
theorem lookupA_upsert_self {β : Type} (k : String) (v : β) (l : List (String × β)) :
    lookupA k (upsert k v l) = some v := by
  induction l with
  | nil => simp [upsert, lookupA]
  | cons hd tl ih =>
    obtain ⟨k', v'⟩ := hd
    by_cases h : k' = k <;> simp [upsert, lookupA, h, ih]

/-- Overwriting another key does not change the lookup of `k`. -/
theorem lookupA_upsert_ne {β : Type} {k id : String} (h : k ≠ id) (v : β)
    (l : List (String × β)) : lookupA k (upsert id v l) = lookupA k l := by
  induction l with
  | nil => simp [upsert, lookupA, Ne.symm h]
  | cons hd tl ih =>
    obtain ⟨k', v'⟩ := hd
    by_cases h1 : k' = id
    · subst h1
      simp [upsert, lookupA, Ne.symm h]
    · by_cases h2 : k' = k <;> simp [upsert, lookupA, h1, h2, h, ih]

/-- Removing another key does not change the lookup of `k`. -/
theorem lookupA_eraseA_ne {β : Type} {k id : String} (h : k ≠ id)
    (l : List (String × β)) : lookupA k (eraseA id l) = lookupA k l := by
  induction l with
  | nil => simp [eraseA]
  | cons hd tl ih =>
    obtain ⟨k', v'⟩ := hd
    by_cases h1 : k' = id
    · subst h1
      simp [eraseA, lookupA, Ne.symm h]
    · by_cases h2 : k' = k <;> simp [eraseA, lookupA, h1, h2, h, ih]

/-- A key that is not present looks up to `none`. -/
theorem lookupA_eq_none_of_not_mem {β : Type} {k : String} {l : List (String × β)}
    (h : k ∉ l.map Prod.fst) : lookupA k l = none := by
  induction l with
  | nil => simp [lookupA]
  | cons hd tl ih =>
    obtain ⟨k', v'⟩ := hd
    simp only [List.map_cons, List.mem_cons] at h
    push_neg at h
    have hne : ¬k' = k := fun he => h.1 he.symm
    simp [lookupA, hne, ih h.2]

/-- With distinct keys, removing `k` makes its lookup `none`. -/
theorem lookupA_eraseA_self {β : Type} {k : String} {l : List (String × β)}
    (h : (l.map Prod.fst).Nodup) : lookupA k (eraseA k l) = none := by
  induction l with
  | nil => simp [eraseA, lookupA]
  | cons hd tl ih =>
    obtain ⟨k', v'⟩ := hd
    simp only [List.map_cons, List.nodup_cons] at h
    by_cases h1 : k' = k
    · subst h1
      simp only [eraseA, if_pos rfl]
      exact lookupA_eq_none_of_not_mem h.1
    · simp [eraseA, lookupA, h1, ih h.2]

/-- Removal yields a sublist. -/
theorem eraseA_sublist {β : Type} (id : String) (l : List (String × β)) :
    List.Sublist (eraseA id l) l := by
  induction l with
  | nil => simp [eraseA]
  | cons hd tl ih =>
    obtain ⟨k', v'⟩ := hd
    by_cases h : k' = id
    · rw [eraseA, if_pos h]
      exact List.sublist_cons_self (k', v') tl
    · rw [eraseA, if_neg h]
      exact List.Sublist.cons₂ (k', v') ih

/-- Removal preserves distinctness of keys. -/
theorem nodup_keys_eraseA {β : Type} {id : String} {l : List (String × β)}
    (h : (l.map Prod.fst).Nodup) : ((eraseA id l).map Prod.fst).Nodup :=
  h.sublist ((eraseA_sublist id l).map Prod.fst)

/-- Every key of the overwritten map is the inserted key or an original key. -/
theorem mem_keys_upsert {β : Type} {x id : String} {v : β} {l : List (String × β)}
    (h : x ∈ (upsert id v l).map Prod.fst) : x = id ∨ x ∈ l.map Prod.fst := by
  induction l with
  | nil => simpa [upsert] using h
  | cons hd tl ih =>
    obtain ⟨k', v'⟩ := hd
    by_cases h1 : k' = id
    · subst h1
      simpa [upsert] using h
    · simp only [upsert, if_neg h1, List.map_cons, List.mem_cons] at h
      rcases h with h | h
      · exact Or.inr (by simp [h])
      · rcases ih h with h' | h'
        · exact Or.inl h'
        · exact Or.inr (by simp [h'])

/-- Overwriting preserves distinctness of keys. -/
theorem nodup_keys_upsert {β : Type} {id : String} (v : β) {l : List (String × β)}
    (h : (l.map Prod.fst).Nodup) : ((upsert id v l).map Prod.fst).Nodup := by
  induction l with
  | nil => simp [upsert]
  | cons hd tl ih =>
    obtain ⟨k', v'⟩ := hd
    simp only [List.map_cons, List.nodup_cons] at h
    by_cases h1 : k' = id
    · subst h1
      simpa [upsert] using h
    · simp only [upsert, if_neg h1, List.map_cons, List.nodup_cons]
      refine ⟨fun hmem => ?_, ih h.2⟩
      rcases mem_keys_upsert hmem with h' | h'
      · exact h1 h'
      · exact h.1 h'

/-! ## The per-id loop realises `idRoundEffect` -/

/-- Processing id `k` itself: the new `unreachable` entry of `k` and the appended
actions are given by `idRoundEffect` applied to the old entry. -/
theorem updateOne_self (majority unreachable_thresh : Nat) (counts : String → Nat)
    (failIds : List String) (unr : List (String × Nat)) (acts : List AggAction)
    (k : String) (hnd : (unr.map Prod.fst).Nodup) :
    lookupA k (updateOne majority unreachable_thresh counts failIds (unr, acts) k).1 =
      (idRoundEffect majority unreachable_thresh counts failIds k (lookupA k unr)).1
    ∧ (updateOne majority unreachable_thresh counts failIds (unr, acts) k).2 =
      acts ++ (idRoundEffect majority unreachable_thresh counts failIds k (lookupA k unr)).2 := by
  unfold updateOne idRoundEffect
  by_cases hc : counts k < majority
  · simp only [hc, if_true]
    cases hl : lookupA k unr with
    | none => simp [lookupA_upsert_self]
    | some cnt =>
      by_cases ht : (cnt + 1) % u64Mod = unreachable_thresh
      · simp [ht, lookupA_eraseA_self (nodup_keys_upsert _ hnd)]
      · simp [ht, lookupA_upsert_self]
  · simp [hc, lookupA_eraseA_self hnd]

/-- Processing a different id: the entry of `k` is untouched and only actions naming
that other id are appended. -/
theorem updateOne_other (majority unreachable_thresh : Nat) (counts : String → Nat)
    (failIds : List String) (unr : List (String × Nat)) (acts : List AggAction)
    {id k : String} (h : id ≠ k) :
    lookupA k (updateOne majority unreachable_thresh counts failIds (unr, acts) id).1 =
      lookupA k unr
    ∧ ∃ extra, (updateOne majority unreachable_thresh counts failIds (unr, acts) id).2 =
        acts ++ extra ∧ ∀ a ∈ extra, AggAction.aid a = id := by
  unfold updateOne
  have hk : k ≠ id := Ne.symm h
  by_cases hc : counts id < majority
  · simp only [hc, if_true]
    cases hl : lookupA id unr with
    | none =>
      refine ⟨lookupA_upsert_ne hk 0 unr, ?_⟩
      by_cases hf : id ∈ failIds <;>
        exact ⟨_, rfl, by simp [hf, AggAction.aid]⟩
    | some cnt =>
      by_cases ht : (cnt + 1) % u64Mod = unreachable_thresh
      · simp only [ht, if_true]
        refine ⟨?_, _, rfl, by simp [AggAction.aid]⟩
        rw [lookupA_eraseA_ne hk, lookupA_upsert_ne hk]
      · simp only [ht, if_false]
        exact ⟨lookupA_upsert_ne hk _ unr, [], by simp⟩
  · simp only [hc, if_false]
    exact ⟨lookupA_eraseA_ne hk unr, [], by simp⟩

/-- The loop body preserves distinctness of the `unreachable` keys. -/
theorem updateOne_nodup (majority unreachable_thresh : Nat) (counts : String → Nat)
    (failIds : List String) (unr : List (String × Nat)) (acts : List AggAction)
    (id : String) (hnd : (unr.map Prod.fst).Nodup) :
    (((updateOne majority unreachable_thresh counts failIds (unr, acts) id).1.map
      Prod.fst)).Nodup := by
  unfold updateOne
  by_cases hc : counts id < majority
  · simp only [hc, if_true]
    cases hl : lookupA id unr with
    | none => exact nodup_keys_upsert _ hnd
    | some cnt =>
      by_cases ht : (cnt + 1) % u64Mod = unreachable_thresh
      · simp only [ht, if_true]
        exact nodup_keys_eraseA (nodup_keys_upsert _ hnd)
      · simp only [ht, if_false]
        exact nodup_keys_upsert _ hnd
  · simp only [hc, if_false]
    exact nodup_keys_eraseA hnd

/-- Folding the loop over ids other than `k` leaves `k`'s entry alone, appends only
actions for other ids, and keeps the keys distinct. -/
theorem foldl_updateOne_not_mem (majority unreachable_thresh : Nat) (counts : String → Nat)
    (failIds : List String) (ks : List String) (k : String) (hk : k ∉ ks) :
    ∀ (unr : List (String × Nat)) (acts : List AggAction),
      (unr.map Prod.fst).Nodup →
      lookupA k (ks.foldl (updateOne majority unreachable_thresh counts failIds)
          (unr, acts)).1 = lookupA k unr
      ∧ (∀ a : AggAction, AggAction.aid a = k →
          (a ∈ (ks.foldl (updateOne majority unreachable_thresh counts failIds)
            (unr, acts)).2 ↔ a ∈ acts)) := by
  induction ks with
  | nil => intro unr acts _; simp
  | cons id tl ih =>
    intro unr acts hnd
    have hne : id ≠ k := fun he => hk (he ▸ List.mem_cons_self id tl)
    have htl : k ∉ tl := fun ht => hk (List.mem_cons_of_mem id ht)
    obtain ⟨hlook, extra, hacts, hextra⟩ :=
      updateOne_other majority unreachable_thresh counts failIds unr acts hne
    have hnd' := updateOne_nodup majority unreachable_thresh counts failIds unr acts id hnd
    simp only [List.foldl_cons]
    obtain ⟨ih1, ih2⟩ := ih htl
      (updateOne majority unreachable_thresh counts failIds (unr, acts) id).1
      (updateOne majority unreachable_thresh counts failIds (unr, acts) id).2 hnd'
    constructor
    · rw [ih1, hlook]
    · intro a ha
      rw [ih2 a ha, hacts, List.mem_append]
      constructor
      · rintro (h | h)
        · exact h
        · exact absurd (hextra a h) (ha ▸ Ne.symm hne)
      · exact Or.inl

/-- Folding the loop over a distinct key list containing `k`: `k`'s entry and the
actions naming `k` are exactly those of `idRoundEffect`. -/
theorem foldl_updateOne_spec (majority unreachable_thresh : Nat) (counts : String → Nat)
    (failIds : List String) (ks : List String) (k : String) (hnd_ks : ks.Nodup)
    (hk : k ∈ ks) :
    ∀ (unr : List (String × Nat)) (acts : List AggAction),
      (unr.map Prod.fst).Nodup →
      lookupA k (ks.foldl (updateOne majority unreachable_thresh counts failIds)
          (unr, acts)).1 =
        (idRoundEffect majority unreachable_thresh counts failIds k (lookupA k unr)).1
      ∧ (∀ a : AggAction, AggAction.aid a = k →
          (a ∈ (ks.foldl (updateOne majority unreachable_thresh counts failIds)
            (unr, acts)).2 ↔
            a ∈ acts ∨
            a ∈ (idRoundEffect majority unreachable_thresh counts failIds k
              (lookupA k unr)).2)) := by
  induction ks with
  | nil => cases hk
  | cons id tl ih =>
    intro unr acts hnd
    rcases List.nodup_cons.mp hnd_ks with ⟨hid_tl, hnd_tl⟩
    by_cases hik : id = k
    · subst hik
      obtain ⟨hs1, hs2⟩ :=
        updateOne_self majority unreachable_thresh counts failIds unr acts id hnd
      have hnd' := updateOne_nodup majority unreachable_thresh counts failIds unr acts id hnd
      simp only [List.foldl_cons]
      obtain ⟨hp1, hp2⟩ := foldl_updateOne_not_mem majority unreachable_thresh counts
        failIds tl id hid_tl
        (updateOne majority unreachable_thresh counts failIds (unr, acts) id).1
        (updateOne majority unreachable_thresh counts failIds (unr, acts) id).2 hnd'
      constructor
      · rw [hp1, hs1]
      · intro a ha
        rw [hp2 a ha, hs2, List.mem_append]
    · have hktl : k ∈ tl := by
        rcases List.mem_cons.mp hk with h | h
        · exact absurd h.symm hik
        · exact h
      obtain ⟨hlook, extra, hacts, hextra⟩ :=
        updateOne_other majority unreachable_thresh counts failIds unr acts hik
      have hnd' := updateOne_nodup majority unreachable_thresh counts failIds unr acts id hnd
      simp only [List.foldl_cons]
      obtain ⟨ih1, ih2⟩ := ih hnd_tl hktl
        (updateOne majority unreachable_thresh counts failIds (unr, acts) id).1
        (updateOne majority unreachable_thresh counts failIds (unr, acts) id).2 hnd'
      constructor
      · rw [ih1, hlook]
      · intro a ha
        rw [ih2 a ha, hlook, hacts, List.mem_append]
        constructor
        · rintro ((h | h) | h)
          · exact Or.inl h
          · exact absurd (hextra a h) (ha ▸ Ne.symm hik)
          · exact Or.inr h
        · rintro (h | h)
          · exact Or.inl (Or.inl h)
          · exact Or.inr h

/-- One aggregator round, for any known id `k`, in a round whose accepted window
reaches the majority: `k`'s `unreachable` entry afterwards and the actions naming `k`
are exactly those of `idRoundEffect` applied to `k`'s entry before the round. -/
theorem step_spec (heartbeat_period unreachable_thresh majority : Nat)
    (failIds : List String) (s : SidecarState) (r : HeartbeatStatus) (k : String)
    (hnd_st : (((upsert r.id r s.statuses).map Prod.fst)).Nodup)
    (hnd_unr : (s.unreachable.map Prod.fst).Nodup)
    (hk : k ∈ (upsert r.id r s.statuses).map Prod.fst)
    (hq : majority ≤ (roundAccepted heartbeat_period (upsert r.id r s.statuses)).length) :
    lookupA k (step heartbeat_period unreachable_thresh majority failIds s r).1.unreachable =
      (idRoundEffect majority unreachable_thresh
        (countReach (roundAccepted heartbeat_period (upsert r.id r s.statuses))) failIds k
        (lookupA k s.unreachable)).1
    ∧ (∀ a : AggAction, AggAction.aid a = k →
        (a ∈ (step heartbeat_period unreachable_thresh majority failIds s r).2 ↔
          a ∈ (idRoundEffect majority unreachable_thresh
            (countReach (roundAccepted heartbeat_period (upsert r.id r s.statuses))) failIds k
            (lookupA k s.unreachable)).2)) := by
  have hnlt : ¬(roundAccepted heartbeat_period (upsert r.id r s.statuses)).length < majority := by
    omega
  obtain ⟨h1, h2⟩ := foldl_updateOne_spec majority unreachable_thresh
    (countReach (roundAccepted heartbeat_period (upsert r.id r s.statuses))) failIds
    ((upsert r.id r s.statuses).map Prod.fst) k hnd_st hk s.unreachable [] hnd_unr
  constructor
  · simpa [step, hnlt] using h1
  · intro a ha
    have := h2 a ha
    simpa [step, hnlt] using this

/-- Report processing splits over list concatenation. -/
theorem runAgg_append (heartbeat_period unreachable_thresh majority : Nat)
    (s : SidecarState) (l1 l2 : List (HeartbeatStatus × List String)) :
    runAgg heartbeat_period unreachable_thresh majority s (l1 ++ l2) =
      ((runAgg heartbeat_period unreachable_thresh majority
          (runAgg heartbeat_period unreachable_thresh majority s l1).1 l2).1,
       (runAgg heartbeat_period unreachable_thresh majority s l1).2 ++
        (runAgg heartbeat_period unreachable_thresh majority
          (runAgg heartbeat_period unreachable_thresh majority s l1).1 l2).2) := by
  induction l1 generalizing s with
  | nil => simp [runAgg]
  | cons hd tl ih =>
    obtain ⟨r, failIds⟩ := hd
    simp [runAgg, ih, List.append_assoc]

/-- All-deletes-succeed report processing splits over list concatenation. -/
theorem runOk_append (heartbeat_period unreachable_thresh majority : Nat)
    (s : SidecarState) (l1 l2 : List HeartbeatStatus) :
    runOk heartbeat_period unreachable_thresh majority s (l1 ++ l2) =
      ((runOk heartbeat_period unreachable_thresh majority
          (runOk heartbeat_period unreachable_thresh majority s l1).1 l2).1,
       (runOk heartbeat_period unreachable_thresh majority s l1).2 ++
        (runOk heartbeat_period unreachable_thresh majority
          (runOk heartbeat_period unreachable_thresh majority s l1).1 l2).2) := by
  unfold runOk
  rw [List.map_append, runAgg_append]

/-- One A/B report pair from `c10State` (threshold 1) returns to the same state and
deletes `C` once (then removes it from the cache at the threshold). -/
theorem c10_cycle :
    runOk 10 1 2 c10State c10Pair =
      (c10State, [.deletePod "C", .logRecoverFail "C"]) := by
  decide

/-- `n` report pairs from `c10State` return to `c10State` and delete `C` `n` times. -/
theorem c10_pairs (n : Nat) :
    (runOk 10 1 2 c10State (nPairs n)).1 = c10State ∧
    (runOk 10 1 2 c10State (nPairs n)).2.count (AggAction.deletePod "C") = n := by
  induction n with
  | zero => exact ⟨rfl, rfl⟩
  | succ n ih =>
    have happ := runOk_append 10 1 2 c10State c10Pair (nPairs n)
    rw [c10_cycle] at happ
    simp only at happ
    constructor
    · rw [nPairs, happ]
      exact ih.1
    · rw [nPairs, happ, List.count_append, ih.2,
        show List.count (AggAction.deletePod "C")
          [AggAction.deletePod "C", AggAction.logRecoverFail "C"] = 1 by decide]
      omega

/-! ## Aggregator re-deletion: claims C6 and C10 -/

/-- C10: in a qualifying round (accepted window at least the majority), a known id
`k` counted below the majority that is not in the `unreachable` cache — in particular
one just removed for reaching the threshold — gets a fresh pod-delete call and is
re-inserted with counter 0 (first conjunct); consequently the delete / increment /
threshold cycle restarts, and on a persistent-offline trace the number of deletes for
`C` grows without bound: `n` extra report pairs yield `n + 1` deletes (second
conjunct). -/
theorem c10_delete_cycle :
    (∀ (heartbeat_period unreachable_thresh majority : Nat) (failIds : List String)
        (s : SidecarState) (r : HeartbeatStatus) (k : String),
      (((upsert r.id r s.statuses).map Prod.fst)).Nodup →
      (s.unreachable.map Prod.fst).Nodup →
      k ∈ (upsert r.id r s.statuses).map Prod.fst →
      majority ≤ (roundAccepted heartbeat_period (upsert r.id r s.statuses)).length →
      countReach (roundAccepted heartbeat_period (upsert r.id r s.statuses)) k < majority →
      lookupA k s.unreachable = none →
      AggAction.deletePod k ∈
        (step heartbeat_period unreachable_thresh majority failIds s r).2 ∧
      lookupA k
        (step heartbeat_period unreachable_thresh majority failIds s r).1.unreachable =
        some 0)
    ∧ ∀ n : Nat,
      (runOk 10 1 2 agg0 (c10Prefix ++ nPairs n)).2.count (AggAction.deletePod "C") =
        n + 1 := by
  constructor
  · intro heartbeat_period unreachable_thresh majority failIds s r k hnd1 hnd2 hk hq hoff h0
    obtain ⟨h1, h2⟩ :=
      step_spec heartbeat_period unreachable_thresh majority failIds s r k hnd1 hnd2 hk hq
    rw [h0] at h1 h2
    constructor
    · rw [h2 (AggAction.deletePod k) rfl]
      unfold idRoundEffect
      by_cases hf : k ∈ failIds <;> simp [hoff, hf]
    · rw [h1]
      unfold idRoundEffect
      simp [hoff]
  · intro n
    have happ := runOk_append 10 1 2 agg0 c10Prefix (nPairs n)
    rw [happ, List.count_append,
      show (runOk 10 1 2 agg0 c10Prefix).1 = c10State from rfl, (c10_pairs n).2,
      show (runOk 10 1 2 agg0 c10Prefix).2.count (AggAction.deletePod "C") = 1 by decide]
    omega

/-- C10 witness: the per-round statement applied at `c10State` with a fresh offline
`C`, and the unbounded-deletes count at `n = 2`. -/
theorem c10_witness :
    (AggAction.deletePod "C" ∈ (step 10 1 2 [] c10State ⟨"A", 100, ["A", "B"]⟩).2 ∧
      lookupA "C" (step 10 1 2 [] c10State ⟨"A", 100, ["A", "B"]⟩).1.unreachable = some 0) ∧
    (runOk 10 1 2 agg0 (c10Prefix ++ nPairs 2)).2.count (AggAction.deletePod "C") = 2 + 1 :=
  ⟨c10_delete_cycle.1 10 1 2 [] c10State ⟨"A", 100, ["A", "B"]⟩ "C"
      (by decide) (by decide) (by decide) (by decide) (by decide) (by decide),
   c10_delete_cycle.2 2⟩

/-- C6 counterexample: with the delete call for `C` failing at `B@110`, the failure
is logged and `C` stays cached at counter 0 — but the next qualifying round
(`A@120`, whose accepted window has length 2 and counts `C` below the majority)
issues deletes only for `A` and `B`: the delete for `C` is NOT retried. -/
theorem c6_counterexample :
    (runAgg 10 2 2 agg0 c6Reports).2 = [.deletePod "C", .logDeleteFail "C"] ∧
    lookupA "C" c6S5.unreachable = some 0 ∧
    2 ≤ (roundAccepted 10 (upsert "A" ⟨"A", 120, ["A"]⟩ c6S5.statuses)).length ∧
    countReach (roundAccepted 10 (upsert "A" ⟨"A", 120, ["A"]⟩ c6S5.statuses)) "C" < 2 ∧
    (step 10 2 2 [] c6S5 ⟨"A", 120, ["A"]⟩).2 = [.deletePod "A", .deletePod "B"] := by
  decide

/-- C6 amended: when the delete call for an offline uncached id `k` fails, the
failure is logged and `k` is cached at counter 0 (first conjunct); on a subsequent
qualifying offline round the delete is NOT retried while `k` is cached below the
threshold — the counter only increments (second conjunct); when the counter reaches
the threshold an error log names `k` and `k` is removed, still without a delete
(third conjunct) — only a later qualifying offline round with `k` uncached issues a
fresh delete. -/
theorem c6_amended :
    (∀ (heartbeat_period unreachable_thresh majority : Nat) (failIds : List String)
        (s : SidecarState) (r : HeartbeatStatus) (k : String),
      (((upsert r.id r s.statuses).map Prod.fst)).Nodup →
      (s.unreachable.map Prod.fst).Nodup →
      k ∈ (upsert r.id r s.statuses).map Prod.fst →
      majority ≤ (roundAccepted heartbeat_period (upsert r.id r s.statuses)).length →
      countReach (roundAccepted heartbeat_period (upsert r.id r s.statuses)) k < majority →
      lookupA k s.unreachable = none → k ∈ failIds →
      AggAction.deletePod k ∈
        (step heartbeat_period unreachable_thresh majority failIds s r).2 ∧
      AggAction.logDeleteFail k ∈
        (step heartbeat_period unreachable_thresh majority failIds s r).2 ∧
      lookupA k
        (step heartbeat_period unreachable_thresh majority failIds s r).1.unreachable =
        some 0)
    ∧ (∀ (heartbeat_period unreachable_thresh majority : Nat) (failIds : List String)
        (s : SidecarState) (r : HeartbeatStatus) (k : String) (cnt : Nat),
      (((upsert r.id r s.statuses).map Prod.fst)).Nodup →
      (s.unreachable.map Prod.fst).Nodup →
      k ∈ (upsert r.id r s.statuses).map Prod.fst →
      majority ≤ (roundAccepted heartbeat_period (upsert r.id r s.statuses)).length →
      countReach (roundAccepted heartbeat_period (upsert r.id r s.statuses)) k < majority →
      lookupA k s.unreachable = some cnt → (cnt + 1) % u64Mod ≠ unreachable_thresh →
      AggAction.deletePod k ∉
        (step heartbeat_period unreachable_thresh majority failIds s r).2 ∧
      lookupA k
        (step heartbeat_period unreachable_thresh majority failIds s r).1.unreachable =
        some ((cnt + 1) % u64Mod))
    ∧ (∀ (heartbeat_period unreachable_thresh majority : Nat) (failIds : List String)
        (s : SidecarState) (r : HeartbeatStatus) (k : String) (cnt : Nat),
      (((upsert r.id r s.statuses).map Prod.fst)).Nodup →
      (s.unreachable.map Prod.fst).Nodup →
      k ∈ (upsert r.id r s.statuses).map Prod.fst →
      majority ≤ (roundAccepted heartbeat_period (upsert r.id r s.statuses)).length →
      countReach (roundAccepted heartbeat_period (upsert r.id r s.statuses)) k < majority →
      lookupA k s.unreachable = some cnt → (cnt + 1) % u64Mod = unreachable_thresh →
      AggAction.deletePod k ∉
        (step heartbeat_period unreachable_thresh majority failIds s r).2 ∧
      AggAction.logRecoverFail k ∈
        (step heartbeat_period unreachable_thresh majority failIds s r).2 ∧
      lookupA k
        (step heartbeat_period unreachable_thresh majority failIds s r).1.unreachable =
        none) := by
  refine ⟨?_, ?_, ?_⟩
  · intro heartbeat_period unreachable_thresh majority failIds s r k hnd1 hnd2 hk hq hoff h0 hf
    obtain ⟨h1, h2⟩ :=
      step_spec heartbeat_period unreachable_thresh majority failIds s r k hnd1 hnd2 hk hq
    rw [h0] at h1 h2
    refine ⟨?_, ?_, ?_⟩
    · rw [h2 (AggAction.deletePod k) rfl]
      unfold idRoundEffect
      simp [hoff, hf]
    · rw [h2 (AggAction.logDeleteFail k) rfl]
      unfold idRoundEffect
      simp [hoff, hf]
    · rw [h1]
      unfold idRoundEffect
      simp [hoff]
  · intro heartbeat_period unreachable_thresh majority failIds s r k cnt
      hnd1 hnd2 hk hq hoff h0 ht
    obtain ⟨h1, h2⟩ :=
      step_spec heartbeat_period unreachable_thresh majority failIds s r k hnd1 hnd2 hk hq
    rw [h0] at h1 h2
    constructor
    · rw [h2 (AggAction.deletePod k) rfl]
      unfold idRoundEffect
      simp [hoff, ht]
    · rw [h1]
      unfold idRoundEffect
      simp [hoff, ht]
  · intro heartbeat_period unreachable_thresh majority failIds s r k cnt
      hnd1 hnd2 hk hq hoff h0 ht
    obtain ⟨h1, h2⟩ :=
      step_spec heartbeat_period unreachable_thresh majority failIds s r k hnd1 hnd2 hk hq
    rw [h0] at h1 h2
    refine ⟨?_, ?_, ?_⟩
    · rw [h2 (AggAction.deletePod k) rfl]
      unfold idRoundEffect
      simp [hoff, ht]
    · rw [h2 (AggAction.logRecoverFail k) rfl]
      unfold idRoundEffect
      simp [hoff, ht]
    · rw [h1]
      unfold idRoundEffect
      simp [hoff, ht]

/-- C6 witness: the three amended conjuncts applied, respectively, at `c10State` with
a failing delete for `C`; at `c6S5` (C cached at 0, threshold 2) on round `A@120`;
and at `c1S6` (C cached at 1, threshold 2) on round `B@120`. -/
theorem c6_witness :
    (AggAction.deletePod "C" ∈ (step 10 2 2 ["C"] c10State ⟨"A", 100, ["A", "B"]⟩).2 ∧
      AggAction.logDeleteFail "C" ∈ (step 10 2 2 ["C"] c10State ⟨"A", 100, ["A", "B"]⟩).2 ∧
      lookupA "C" (step 10 2 2 ["C"] c10State ⟨"A", 100, ["A", "B"]⟩).1.unreachable = some 0) ∧
    (AggAction.deletePod "C" ∉ (step 10 2 2 [] c6S5 ⟨"A", 120, ["A"]⟩).2 ∧
      lookupA "C" (step 10 2 2 [] c6S5 ⟨"A", 120, ["A"]⟩).1.unreachable =
        some ((0 + 1) % u64Mod)) ∧
    (AggAction.deletePod "C" ∉ (step 10 2 2 [] c1S6 ⟨"B", 120, ["B"]⟩).2 ∧
      AggAction.logRecoverFail "C" ∈ (step 10 2 2 [] c1S6 ⟨"B", 120, ["B"]⟩).2 ∧
      lookupA "C" (step 10 2 2 [] c1S6 ⟨"B", 120, ["B"]⟩).1.unreachable = none) :=
  ⟨c6_amended.1 10 2 2 ["C"] c10State ⟨"A", 100, ["A", "B"]⟩ "C"
      (by decide) (by decide) (by decide) (by decide) (by decide) (by decide) (by decide),
   c6_amended.2.1 10 2 2 [] c6S5 ⟨"A", 120, ["A"]⟩ "C" 0
      (by decide) (by decide) (by decide) (by decide) (by decide) (by decide) (by decide),
   c6_amended.2.2 10 2 2 [] c1S6 ⟨"B", 120, ["B"]⟩ "C" 1
      (by decide) (by decide) (by decide) (by decide) (by decide) (by decide) (by decide)⟩

end XlineOperator
